import Mathlib

/-!
Shallow embedding of the bababot command core (src/backend.rs, src/shard.rs,
src/casefile.rs) and proofs about its claimed properties.

Character-level predicates model the Rust `char` classification functions on
the ASCII range (all string constants in the program and in the claims are
ASCII); machine integers are modelled as `Nat` with explicit bounds where the
Rust code uses bounded types.
-/

namespace Bababot

/-- ASCII fragment of Rust `char::is_alphabetic`. -/
def isAlphaCh (c : Char) : Bool :=
  (65 ≤ c.toNat && c.toNat ≤ 90) || (97 ≤ c.toNat && c.toNat ≤ 122)

/-- ASCII fragment of Rust `char::is_ascii_digit` / digit test used by integer parsing. -/
def isDigitCh (c : Char) : Bool :=
  48 ≤ c.toNat && c.toNat ≤ 57

/-- ASCII fragment of Rust `char::is_whitespace`. -/
def isWhitespaceCh (c : Char) : Bool :=
  c.toNat = 32 || c.toNat = 9 || c.toNat = 10 || c.toNat = 13

/-- Numeric value of a list of ASCII digits, most significant first. -/
def digitsToNat (cs : List Char) : Nat :=
  cs.foldl (fun a c => a * 10 + (c.toNat - 48)) 0

/-- Drop one leading plus sign, as Rust unsigned-integer parsing allows. -/
def dropPlus (cs : List Char) : List Char :=
  match cs with
  | [] => []
  | c :: rest => if c = '+' then rest else c :: rest

/-- Rust `str::parse` for an unsigned integer type, without the range bound:
an optional leading `+` followed by one or more ASCII digits. -/
def rustParseNat (cs : List Char) : Option Nat :=
  if (dropPlus cs).isEmpty then none
  else if (dropPlus cs).all isDigitCh then some (digitsToNat (dropPlus cs)) else none

/-- Rust `str::parse` into an unsigned type whose maximal value is `bound`. -/
def rustParseBounded (bound : Nat) (cs : List Char) : Option Nat :=
  (rustParseNat cs).bind fun n => if n ≤ bound then some n else none

/-- Rust `str::parse::<u8>` on a list of characters. -/
def parseU8 (cs : List Char) : Option Nat := rustParseBounded 255 cs

/-- Rust `str::parse::<u32>` on a string. -/
def parseU32 (s : String) : Option Nat := rustParseBounded (2 ^ 32 - 1) s.data

/-- Rust `str::parse::<u64>` on a string. -/
def parseU64 (s : String) : Option Nat := rustParseBounded (2 ^ 64 - 1) s.data

/-- The four duration unit markers of `Time::from_str` (backend.rs line 292). -/
def isUnitChar (c : Char) : Bool :=
  c = 's' || c = 'm' || c = 'h' || c = 'd'

/-- Worker for `splitInclusive`: `acc` holds the current chunk, reversed. -/
def splitInclusiveAux (p : Char → Bool) (acc : List Char) : List Char → List (List Char)
  | [] => if acc.isEmpty then [] else [acc.reverse]
  | c :: rest =>
    if p c then (acc.reverse ++ [c]) :: splitInclusiveAux p [] rest
    else splitInclusiveAux p (c :: acc) rest

/-- Rust `str::split_inclusive` on a character predicate: chunks end at (and
keep) each matching character; a trailing chunk without a matching character
is kept; the empty input yields no chunks. -/
def splitInclusive (p : Char → Bool) (l : List Char) : List (List Char) :=
  splitInclusiveAux p [] l

/-- The duration structure of backend.rs (`Time`), fields `u8` in the source;
modelled as `Nat`, parsing enforces the 255 bound. -/
structure Time where
  seconds : Nat
  minutes : Nat
  hours : Nat
  days : Nat
deriving DecidableEq, Repr

/-- Parse errors of `Time::from_str` (backend.rs `TimeErr`). The payload of
`ParseIntError` is the unparsable character run. -/
inductive TimeErr where
  | InvalidTimeSpecifier (c : Char)
  | ParseIntError (cs : List Char)
  | NoTimeSpecifier
deriving DecidableEq, Repr

/-- The unit-character match of `Time::from_str` (backend.rs lines 298-305):
the source matches the first alphabetic character (with `'\\'` standing in
when there is none) against the four units, the backslash marker, and a
catch-all. -/
def unitDispatch (t : Time) (val : Nat) : Char → Except TimeErr Time
  | 's' => .ok { t with seconds := val }
  | 'm' => .ok { t with minutes := val }
  | 'h' => .ok { t with hours := val }
  | 'd' => .ok { t with days := val }
  | '\\' => .error .NoTimeSpecifier
  | c => .error (.InvalidTimeSpecifier c)

/-- One iteration of the loop in `Time::from_str` (backend.rs lines 294-309):
partition the run into its non-alphabetic and alphabetic characters, parse the
former as `u8`, and dispatch on the first alphabetic character (defaulting to
a backslash when there is none, which the source uses as its missing-unit
marker). -/
def processRun (t : Time) (run : List Char) : Except TimeErr Time :=
  let timeChange := (run.partition fun c => !(isAlphaCh c)).1
  let duration := (run.partition fun c => !(isAlphaCh c)).2
  match parseU8 timeChange with
  | some val => unitDispatch t val (duration.headD '\\')
  | none => .error (.ParseIntError timeChange)

/-- The loop of `Time::from_str`, with its early return on the first error. -/
def timeFromStrList (runs : List (List Char)) (t : Time) : Except TimeErr Time :=
  match runs with
  | [] => .ok t
  | r :: rs =>
    match processRun t r with
    | .ok t' => timeFromStrList rs t'
    | .error e => .error e

deriving instance DecidableEq for Except

/-- `Time::from_str` (backend.rs lines 291-311). -/
def timeFromStr (s : String) : Except TimeErr Time :=
  timeFromStrList (splitInclusive isUnitChar s.data) ⟨0, 0, 0, 0⟩

example : timeFromStr "7s" = .ok ⟨7, 0, 0, 0⟩ := by decide
example : timeFromStr "2h30m" = .ok ⟨0, 30, 2, 0⟩ := by decide
example : timeFromStr "" = .ok ⟨0, 0, 0, 0⟩ := by decide
example : timeFromStr "2m3m" = .ok ⟨0, 3, 0, 0⟩ := by decide
example : timeFromStr "5x" = .error (.InvalidTimeSpecifier 'x') := by decide
example : timeFromStr "5" = .error .NoTimeSpecifier := by decide
example : timeFromStr "x" = .error (.ParseIntError []) := by decide
example : timeFromStr "999s" = .error (.ParseIntError ['9', '9', '9']) := by decide

/-! ## Command grammar (backend.rs) -/

/-- The hardcoded developer identity (backend.rs line 13). -/
def CAMILA : Nat := 284883095981916160

/-- The command-kind enumeration of backend.rs (`CommandType`, lines 328-343).
The source enum has no `Optin`, `Optout` or `Keke` variants. -/
inductive CommandType where
  | Ban
  | Mute
  | Notice
  | PrivateModMessage
  | Xkcd
  | DontAskToAsk
  | NotValid
  | NotACommand
  | Help
  | Suggestion
  | Dev
  | CoinFlip
  | RandomInt
deriving DecidableEq, Repr

/-- The parsed-command representation of backend.rs (`Command`, lines 16-44).
User ids are modelled as `Nat`. -/
inductive Command where
  | Ban (user : Nat) (reason : String)
  | Mute (user : Nat) (time : Time) (reason : String)
  | Notice (text : String)
  | PrivateModMessage (message : String) (user : String)
  | Xkcd (id : Nat)
  | DontAskToAsk
  | Help (kind : Option CommandType)
  | Suggestion (text : String)
  | NotValid (reason : String)
  | NotACommand
  | Dev (text : String)
  | CoinFlip
  | RandomInt (bound : Nat)
deriving DecidableEq, Repr

/-- ASCII fragment of Rust `char::to_lowercase` (`'A'..'Z'` map to
`'a'..'z'`, everything else is unchanged). -/
def asciiLower (c : Char) : Char :=
  if 65 ≤ c.toNat ∧ c.toNat ≤ 90 then Char.ofNat (c.toNat + 32) else c

/-- Rust `str::to_lowercase`, ASCII fragment. -/
def lowerStr (s : String) : String := String.mk (s.data.map asciiLower)

/-- Worker for `splitOnCh`; `acc` is the current chunk, reversed. -/
def splitOnAux (p : Char → Bool) (acc : List Char) : List Char → List (List Char)
  | [] => [acc.reverse]
  | c :: rest =>
    if p c then acc.reverse :: splitOnAux p [] rest
    else splitOnAux p (c :: acc) rest

/-- Rust `str::split` on a character predicate: the chunks between separator
characters, which may be empty; the empty input yields one empty chunk. -/
def splitOnCh (p : Char → Bool) (l : List Char) : List (List Char) :=
  splitOnAux p [] l

/-- Rust `str::strip_prefix('-').unwrap_or(s)` used by `CommandType::from_str`. -/
def stripDashOr (l : List Char) : List Char :=
  match l with
  | [] => []
  | c :: rest => if c = '-' then rest else c :: rest

/-- The token-matching tail of `CommandType::from_str` (backend.rs lines
490-503): the match on the already-lowercased token. -/
def classifyToken (t : String) : CommandType :=
  if t = "ban" then .Ban
  else if t = "mute" then .Mute
  else if t = "notice" then .Notice
  else if t = "private" ∨ t = "pvm" then .PrivateModMessage
  else if t = "xkcd" then .Xkcd
  else if t = "dontasktoask" ∨ t = "da2a" then .DontAskToAsk
  else if t = "help" then .Help
  else if t = "suggest" then .Suggestion
  else if t = "dev" then .Dev
  else if t = "coinflip" ∨ t = "flip" then .CoinFlip
  else if t = "randint" ∨ t = "rand" then .RandomInt
  else .NotValid

/-- `CommandType::from_str` (backend.rs lines 482-504): strip one leading
dash, split at spaces and newlines, take the first piece, lowercase it and
match it against the token table. Total: the source error type is
`Infallible`. -/
def commandTypeFromStr (s : String) : CommandType :=
  let binding := splitOnCh (fun c => c = ' ' || c = '\n') (stripDashOr s.data)
  let headTok := binding.headD []
  classifyToken (lowerStr (String.mk headTok))

example : commandTypeFromStr "-ban foo" = .Ban := by decide
example : commandTypeFromStr "BAN" = .Ban := by decide
example : commandTypeFromStr "FLiP" = .CoinFlip := by decide
example : commandTypeFromStr "" = .NotValid := by decide
example : commandTypeFromStr "optin" = .NotValid := by decide

/-- `BotShard::user_is_mod` (backend.rs lines 668-679): `userReq` is the
outcome of `user_request` (carrying the requested user's id on success) and
`hasRole` the outcome of the staff-role query; every error falls back to
`false`, and the developer is always treated as a moderator. -/
def userIsMod (userReq : Except Unit Nat) (hasRole : Nat → Except Unit Bool) : Bool :=
  match userReq with
  | .ok uid =>
    match hasRole uid with
    | .ok b => b || uid == CAMILA
    | .error _ => false
  | .error _ => false

/-- `Command::requires_mod` (backend.rs lines 50-61), with the moderator
query's boolean outcome passed in. -/
def Command.requiresMod (isMod : Bool) (c : Command) : Command :=
  if isMod then c
  else
    match c with
    | .Ban _ _ => .NotValid "User is not a registered moderator"
    | .Mute _ _ _ => .NotValid "User is not a registered moderator"
    | .Notice _ => .NotValid "User is not a registered moderator"
    | this => this

/-- `Command::requires_dev` (backend.rs lines 62-68). -/
def Command.requiresDev (authorId : Nat) (c : Command) : Command :=
  if authorId == CAMILA then c else .NotValid "User is not the dev!"

/-- The privileged command variants, the only ones `requires_mod` rewrites. -/
def Command.isPrivileged (c : Command) : Bool :=
  match c with
  | .Ban _ _ => true
  | .Mute _ _ _ => true
  | .Notice _ => true
  | _ => false

/-- `vec_string_to_string` (backend.rs lines 700-712): join the slice from
`idx` on with single spaces. Slicing `&vector[idx..]` panics when `idx`
exceeds the length; the panic is modelled as `none`. -/
def vecStringToString (vector : List String) (idx : Option Nat) : Option String :=
  match idx with
  | some index =>
    if index ≤ vector.length then some (String.intercalate " " (vector.drop index))
    else none
  | none => some (String.intercalate " " vector)

/-- Whether a character list starts with the given other list. -/
def listStartsWith : List Char → List Char → Bool
  | _, [] => true
  | [], _ :: _ => false
  | c :: cs, d :: ds => c == d && listStartsWith cs ds

/-- Whether a character list ends with the given character. -/
def listEndsWithCh (l : List Char) (c : Char) : Bool :=
  match l.getLast? with
  | some d => d == c
  | none => false

/-- The serenity `UserId` string parser used by the `Ban` and `Mute` arms
(library code): a raw `u64`, or a `<@id>` / `<@!id>` mention. -/
def userIdFromStr (s : String) : Option Nat :=
  let l := s.data
  if listStartsWith l ['<', '@', '!'] && listEndsWithCh l '>' then
    rustParseBounded (2 ^ 64 - 1) ((l.drop 3).dropLast)
  else if listStartsWith l ['<', '@'] && listEndsWithCh l '>' then
    rustParseBounded (2 ^ 64 - 1) ((l.drop 2).dropLast)
  else parseU64 s

/-- `xkcd_from_string` (backend.rs lines 685-698): numeric parse first, then
the alias table matched against the lowercased input. The `"OS"` pattern is
written in uppercase in the source, exactly as mirrored here. -/
def xkcdFromString (s : String) : Nat :=
  match parseU32 s with
  | some val => val
  | none =>
    let l := lowerStr s
    if l = "tautology" ∨ l = "tautological" ∨ l = "honor society" then 703
    else if l = "python" ∨ l = "import antigravity" ∨ l = "antigravity" then 353
    else if l = "haskell" ∨ l = "side effects" then 1312
    else if l = "trolley problem" then 1455
    else if l = "linux" ∨ l = "OS" then 272
    else 404

/-- The body of `Command::parse_from_message` after the prefix early return
(backend.rs lines 79-146): the whitespace-split argument vector is examined,
the first token's dash is stripped (the `expect` panic, modelled `none`, is
unreachable there), the leading token is classified, and each command kind
parses its own arguments. A Rust panic (the out-of-range indexings
`args[1]` / `args[2]`) is modelled as `none`. -/
def parseArgs (args : List String) (authorName : String) (isMod : Bool)
    (authorId : Nat) : Option Command :=
  if args.isEmpty = true then some .NotACommand
  else
    match (args.headD "").data with
    | '-' :: rest =>
      match commandTypeFromStr (String.mk rest) with
      | CommandType.Ban =>
        match args.get? 1 with
        | none => none
        | some a1 =>
          match userIdFromStr a1 with
          | none => some (.NotValid "Given user was not a valid UserID")
          | some uid =>
            match vecStringToString args (some 1) with
            | none => none
            | some reason => some ((Command.Ban uid reason).requiresMod isMod)
      | CommandType.Mute =>
        match args.get? 1 with
        | none => none
        | some a1 =>
          match userIdFromStr a1 with
          | none => some (.NotValid "Given user was not a valid UserID")
          | some uid =>
            match args.get? 2 with
            | none => none
            | some a2 =>
              match timeFromStr a2 with
              | .error _ => some (.NotValid "Given time was invalid!")
              | .ok time =>
                match vecStringToString args (some 3) with
                | none => none
                | some reason => some ((Command.Mute uid time reason).requiresMod isMod)
      | CommandType.Notice =>
        match vecStringToString args (some 1) with
        | none => none
        | some t => some ((Command.Notice t).requiresMod isMod)
      | CommandType.PrivateModMessage =>
        match vecStringToString args (some 1) with
        | none => none
        | some t => some (Command.PrivateModMessage t authorName)
      | CommandType.Xkcd =>
        match vecStringToString args (some 1) with
        | none => none
        | some t => some (Command.Xkcd (xkcdFromString t))
      | CommandType.DontAskToAsk => some .DontAskToAsk
      | CommandType.NotValid => some (.NotValid "I couldn\x27t parse the command!")
      | CommandType.NotACommand => some .NotACommand
      | CommandType.Help =>
        if args.length = 1 then some (.Help none)
        else
          match vecStringToString args (some 1) with
          | none => none
          | some t => some (Command.Help (some (commandTypeFromStr t)))
      | CommandType.Suggestion =>
        match vecStringToString args (some 1) with
        | none => none
        | some t => some (Command.Suggestion t)
      | CommandType.Dev =>
        match vecStringToString args (some 1) with
        | none => none
        | some t => some ((Command.Dev t).requiresDev authorId)
      | CommandType.CoinFlip => some .CoinFlip
      | CommandType.RandomInt =>
        match vecStringToString args (some 1) with
        | none => none
        | some t =>
          match parseU32 t with
          | some int => some (.RandomInt int)
          | none => some (.NotValid "Couldn\x27t parse an integer from the given arguments!")
    | _ => none

/-- `Command::parse_from_message` (backend.rs lines 70-147). The shard is
represented by the message `content`, the author's display name, the
moderator-query outcome `isMod` and the author's id. -/
def parseFromMessage (content : String) (authorName : String) (isMod : Bool)
    (authorId : Nat) : Option Command :=
  if listStartsWith content.data ['-'] = false then some .NotACommand
  else parseArgs ((splitOnCh isWhitespaceCh content.data).map String.mk)
    authorName isMod authorId

example : parseFromMessage "hello there" "a" false 0 = some .NotACommand := by decide
example : parseFromMessage "-" "a" false 0
    = some (.NotValid "I couldn\x27t parse the command!") := by decide
example : parseFromMessage "-ban" "a" true 0 = none := by decide
example : parseFromMessage "-mute 123" "a" true 0 = none := by decide
example : parseFromMessage "-xkcd tautology" "a" false 0 = some (.Xkcd 703) := by decide
example : parseFromMessage "-ban 123456 spamming" "a" false 0
    = some (.NotValid "User is not a registered moderator") := by decide
example : parseFromMessage "-ban 123456 spamming" "a" true 0
    = some (.Ban 123456 "123456 spamming") := by decide
example : parseFromMessage "-randint 10" "a" false 0 = some (.RandomInt 10) := by decide
example : parseFromMessage "-coinflip" "a" false 0 = some .CoinFlip := by decide

/-! ## Ban execution (backend.rs, `execute_command` Ban arm) -/

/-- The four gateway calls the `Ban` arm of `execute_command` makes, in
source order (backend.rs lines 152-179). -/
inductive BanEffect where
  | MemberRequest
  | BanCall
  | DmMessage
  | ChannelMessage
deriving DecidableEq, Repr

/-- Outcomes of the four fallible gateway calls of the `Ban` arm. -/
structure BanGateway where
  memberOk : Bool
  banOk : Bool
  dmOk : Bool
  sendOk : Bool
deriving DecidableEq, Repr

/-- One `?`-propagated call: record the attempt, and continue only on
success. -/
def banStep (trace : List BanEffect) (e : BanEffect) (ok : Bool)
    (k : List BanEffect → List BanEffect × Bool) : List BanEffect × Bool :=
  let t := trace ++ [e]
  if ok then k t else (t, false)

/-- The `Ban` arm of `Command::execute_command` (backend.rs lines 152-179):
member lookup, then `ban_with_reason`, then the DM to the banned user, then
the channel confirmation, each with `?` so any failure returns immediately.
The result records the calls attempted, in order, and whether the arm
returned `Ok`. -/
def executeBan (gw : BanGateway) : List BanEffect × Bool :=
  banStep [] .MemberRequest gw.memberOk fun t1 =>
  banStep t1 .BanCall gw.banOk fun t2 =>
  banStep t2 .DmMessage gw.dmOk fun t3 =>
  banStep t3 .ChannelMessage gw.sendOk fun t4 => (t4, true)

/-! ## Blacklist persistence (backend.rs lines 593-620, shard.rs 101-128) -/

/-- `BotShard::user_is_blacklisted`: linear membership scan of the stored id
list (the file's parsed lines). -/
def userIsBlacklisted (stored : List Nat) (userId : Nat) : Bool :=
  stored.contains userId

/-- `BotShard::blacklist_user`: read the stored lines and push the user's id
unconditionally, with no membership check and no deduplication. -/
def blacklistUser (stored : List Nat) (userId : Nat) : List Nat :=
  stored ++ [userId]

/-! ## Casefile id allocation (casefile.rs lines 64-76) -/

/-- `CaseFileAction::lowest_id_availible`, modelled charitably: the row
closure `id = id.max(x)` folded over every stored case id starting from 0.
(In the source the row iterator produced by `query_map` is additionally
discarded unevaluated, so the fold would not even run.) -/
def lowestIdAvailible (ids : List Nat) : Nat :=
  ids.foldl (fun id x => max id x) 0

/-- Modelled from the spec: the identifier of a new casefile is "the lowest
non-negative integer not currently in use"; the source has no implementation
of a minimal-free-id search, so the spec's words are modelled directly. -/
def specLowestFreeId (ids : List Nat) : Nat :=
  ((List.range (ids.length + 1)).find? fun n => !(ids.contains n)).getD 0

/-! ## Duration to expiry seconds (backend.rs lines 266-286) -/

/-- An `u8` multiplication with Rust's overflow check: `none` models the
debug-build panic (a release build would wrap instead). -/
def mulU8 (a b : Nat) : Option Nat :=
  if a * b ≤ 255 then some (a * b) else none

/-- The duration computation of `TryFrom<Time> for Timestamp` (backend.rs
lines 269-280): the number of seconds added to `now`, with every
multiplication performed in `u8` exactly as the source writes it
(`value.minutes * 60`, `value.hours * 60 * 60`, `value.days * 60 * 60 * 24`)
before the widening `.into()` conversion. -/
def timeDurationSecs (t : Time) : Option Nat := do
  let m ← mulU8 t.minutes 60
  let h1 ← mulU8 t.hours 60
  let h ← mulU8 h1 60
  let d1 ← mulU8 t.days 60
  let d2 ← mulU8 d1 60
  let d ← mulU8 d2 24
  pure (t.seconds + m + h + d)

/-- Modelled from the spec: the expiry is now plus exactly
`seconds + 60*minutes + 3600*hours + 86400*days` seconds. -/
def specDurationSecs (t : Time) : Nat :=
  t.seconds + 60 * t.minutes + 3600 * t.hours + 86400 * t.days

/-! ## Spec-side reference definitions for the classifier and time parser -/

/-- Modelled from the spec: the section-4.2 synonym table applied to the
lowercased token (without the `optin`/`optout`/`keke` entries, which name
command kinds the source enum does not have). -/
def classifySpec (token : String) : CommandType :=
  if lowerStr token = "ban" then .Ban
  else if lowerStr token = "mute" then .Mute
  else if lowerStr token = "notice" then .Notice
  else if lowerStr token = "private" ∨ lowerStr token = "pvm" then .PrivateModMessage
  else if lowerStr token = "xkcd" then .Xkcd
  else if lowerStr token = "dontasktoask" ∨ lowerStr token = "da2a" then .DontAskToAsk
  else if lowerStr token = "help" then .Help
  else if lowerStr token = "suggest" then .Suggestion
  else if lowerStr token = "dev" then .Dev
  else if lowerStr token = "coinflip" ∨ lowerStr token = "flip" then .CoinFlip
  else if lowerStr token = "randint" ∨ lowerStr token = "rand" then .RandomInt
  else .NotValid

/-- A bare command token: no leading dash and no space or newline, so the
classifier's preprocessing leaves it untouched. -/
def isBareToken (s : String) : Bool :=
  !(listStartsWith s.data ['-']) && s.data.all fun c => !(c = ' ' || c = '\n')

/-- Set the field selected by a unit character, as one loop iteration of
`Time::from_str` does on a valid run. -/
def setUnit (t : Time) (u : Char) (v : Nat) : Time :=
  if u = 's' then { t with seconds := v }
  else if u = 'm' then { t with minutes := v }
  else if u = 'h' then { t with hours := v }
  else if u = 'd' then { t with days := v }
  else t

/-- Render a list of value-unit pairs (digits of the value, then the unit
character) as one duration string's characters, e.g. `[(2,h),(30,m)] ↦ 2h30m`. -/
def renderPairs (pairs : List (List Char × Char)) : List Char :=
  (pairs.map fun p => p.1 ++ [p.2]).flatten

/-- Well-formed value-unit pairs: each value is a nonempty digit run whose
value fits in `u8`, each unit is one of `s`, `m`, `h`, `d`. -/
def wfPairs (pairs : List (List Char × Char)) : Bool :=
  pairs.all fun p =>
    !p.1.isEmpty && p.1.all isDigitCh && decide (digitsToNat p.1 ≤ 255) && isUnitChar p.2

/-- The non-alphabetic characters of a run: its numeric part. -/
def runNumPart (r : List Char) : List Char :=
  r.filter fun c => !(isAlphaCh c)

/-- The alphabetic characters of a run. -/
def runAlphaPart (r : List Char) : List Char :=
  r.filter isAlphaCh

/-- The error a single run produces, per the amended claim: the numeric part
is checked first (`ParseIntError` when it is not a `u8`), then a run with no
alphabetic character at all is `NoTimeSpecifier`, and otherwise the first
alphabetic character decides `InvalidTimeSpecifier`; `none` when the run is
accepted. -/
def runVerdict (r : List Char) : Option TimeErr :=
  if (parseU8 (runNumPart r)).isNone then some (.ParseIntError (runNumPart r))
  else
    match (runAlphaPart r).head? with
    | none => some .NoTimeSpecifier
    | some c => if isUnitChar c then none else some (.InvalidTimeSpecifier c)

/-! ## Helper lemmas for the time parser -/

lemma isAlphaCh_of_digit (c : Char) (h : isDigitCh c = true) : isAlphaCh c = false := by
  simp only [isDigitCh, Bool.and_eq_true, decide_eq_true_eq] at h
  simp only [isAlphaCh, Bool.or_eq_false_iff, Bool.and_eq_false_iff,
    decide_eq_false_iff_not, not_le]
  omega

/-- The four unit characters as a right-nested disjunction. -/
lemma unit_char_cases (c : Char) (h : isUnitChar c = true) :
    c = 's' ∨ c = 'm' ∨ c = 'h' ∨ c = 'd' := by
  simpa only [isUnitChar, Bool.or_eq_true, decide_eq_true_eq, or_assoc] using h

lemma isAlphaCh_of_unit (c : Char) (h : isUnitChar c = true) : isAlphaCh c = true := by
  rcases unit_char_cases c h with rfl | rfl | rfl | rfl <;> decide

lemma isUnitChar_of_digit (c : Char) (h : isDigitCh c = true) : isUnitChar c = false := by
  cases hu : isUnitChar c with
  | false => rfl
  | true =>
    have h1 := isAlphaCh_of_unit c hu
    have h2 := isAlphaCh_of_digit c h
    rw [h1] at h2
    exact h2

lemma partition_run_fst (r : List Char) :
    (r.partition fun c => !(isAlphaCh c)).1 = runNumPart r := by
  simp [List.partition_eq_filter_filter, runNumPart]

lemma partition_run_snd (r : List Char) :
    (r.partition fun c => !(isAlphaCh c)).2 = runAlphaPart r := by
  simp only [List.partition_eq_filter_filter, runAlphaPart]
  refine List.filter_congr fun a _ => ?_
  simp [Function.comp]

lemma parseU8_digits (ds : List Char) (hne : ds ≠ [])
    (hds : ∀ a ∈ ds, isDigitCh a = true) (hval : digitsToNat ds ≤ 255) :
    parseU8 ds = some (digitsToNat ds) := by
  have hdp : dropPlus ds = ds := by
    cases ds with
    | nil => rfl
    | cons a rest =>
      have hd := hds a (by simp)
      have ha : ¬(a = '+') := by rintro rfl; exact absurd hd (by decide)
      simp [dropPlus, ha]
  have hisEmpty : ds.isEmpty = false := by
    cases ds with
    | nil => exact absurd rfl hne
    | cons a rest => rfl
  unfold parseU8 rustParseBounded rustParseNat
  rw [hdp, hisEmpty, List.all_eq_true.mpr hds]
  simp [hval]

lemma splitInclusiveAux_append (p : Char → Bool) (xs ys : List Char) (c : Char)
    (hxs : ∀ a ∈ xs, p a = false) (hc : p c = true) (acc : List Char) :
    splitInclusiveAux p acc (xs ++ c :: ys)
      = (acc.reverse ++ xs ++ [c]) :: splitInclusiveAux p [] ys := by
  induction xs generalizing acc with
  | nil => simp [splitInclusiveAux, hc]
  | cons a xs ih =>
    have ha : p a = false := hxs a (by simp)
    simp only [List.cons_append, splitInclusiveAux, ha, Bool.false_eq_true, if_false,
      List.append_eq]
    rw [ih (fun b hb => hxs b (by simp [hb]))]
    simp

/-- `processRun` when the numeric part fails to parse. -/
lemma processRun_eq_none (t : Time) (r : List Char)
    (hp : parseU8 (runNumPart r) = none) :
    processRun t r = .error (.ParseIntError (runNumPart r)) := by
  simp only [processRun, partition_run_fst, partition_run_snd, hp]

/-- `processRun` when the numeric part parses. -/
lemma processRun_eq_some (t : Time) (r : List Char) (v : Nat)
    (hp : parseU8 (runNumPart r) = some v) :
    processRun t r = unitDispatch t v ((runAlphaPart r).headD '\\') := by
  simp only [processRun, partition_run_fst, partition_run_snd, hp]

/-- The catch-all arm of the unit dispatch. -/
lemma unitDispatch_invalid (t : Time) (v : Nat) (c : Char)
    (hc : isUnitChar c = false) (hy : ¬(c = '\\')) :
    unitDispatch t v c = .error (.InvalidTimeSpecifier c) := by
  have hs : ¬(c = 's') := by rintro rfl; simp [isUnitChar] at hc
  have hm : ¬(c = 'm') := by rintro rfl; simp [isUnitChar] at hc
  have hh : ¬(c = 'h') := by rintro rfl; simp [isUnitChar] at hc
  have hd : ¬(c = 'd') := by rintro rfl; simp [isUnitChar] at hc
  unfold unitDispatch
  split
  · simp_all
  · simp_all
  · simp_all
  · simp_all
  · simp_all
  · rfl

lemma runNumPart_render (ds : List Char) (u : Char)
    (hds : ∀ a ∈ ds, isDigitCh a = true) (hu : isUnitChar u = true) :
    runNumPart (ds ++ [u]) = ds := by
  unfold runNumPart
  rw [List.filter_append]
  have h1 : ds.filter (fun c => !(isAlphaCh c)) = ds :=
    List.filter_eq_self.mpr fun a ha => by simp [isAlphaCh_of_digit a (hds a ha)]
  have h2 : ([u].filter fun c => !(isAlphaCh c)) = [] := by
    simp [isAlphaCh_of_unit u hu]
  rw [h1, h2, List.append_nil]

lemma runAlphaPart_render (ds : List Char) (u : Char)
    (hds : ∀ a ∈ ds, isDigitCh a = true) (hu : isUnitChar u = true) :
    runAlphaPart (ds ++ [u]) = [u] := by
  unfold runAlphaPart
  rw [List.filter_append]
  have h1 : ds.filter isAlphaCh = [] := by
    rw [List.filter_eq_nil_iff]
    intro a ha; simp [isAlphaCh_of_digit a (hds a ha)]
  have h2 : [u].filter isAlphaCh = [u] := by simp [isAlphaCh_of_unit u hu]
  rw [h1, h2, List.nil_append]

lemma processRun_render (t : Time) (ds : List Char) (u : Char) (hne : ds ≠ [])
    (hds : ∀ a ∈ ds, isDigitCh a = true) (hval : digitsToNat ds ≤ 255)
    (hu : isUnitChar u = true) :
    processRun t (ds ++ [u]) = .ok (setUnit t u (digitsToNat ds)) := by
  have hp : parseU8 (runNumPart (ds ++ [u])) = some (digitsToNat ds) := by
    rw [runNumPart_render ds u hds hu]; exact parseU8_digits ds hne hds hval
  rw [processRun_eq_some t (ds ++ [u]) (digitsToNat ds) hp,
    runAlphaPart_render ds u hds hu]
  rcases unit_char_cases u hu with rfl | rfl | rfl | rfl <;> simp [unitDispatch, setUnit]

lemma timeFromStrList_render (pairs : List (List Char × Char)) (t : Time)
    (h : wfPairs pairs = true) :
    timeFromStrList (splitInclusive isUnitChar (renderPairs pairs)) t
      = .ok (pairs.foldl (fun acc p => setUnit acc p.2 (digitsToNat p.1)) t) := by
  induction pairs generalizing t with
  | nil => rfl
  | cons hd tl ih =>
    simp only [wfPairs, List.all_cons, Bool.and_eq_true] at h
    obtain ⟨⟨⟨⟨hne, hds⟩, hval⟩, hu⟩, htl⟩ := h
    have hne' : hd.1 ≠ [] := by
      intro hnil; rw [hnil] at hne; exact absurd hne (by decide)
    have hds' : ∀ a ∈ hd.1, isDigitCh a = true := List.all_eq_true.mp hds
    have hval' : digitsToNat hd.1 ≤ 255 := of_decide_eq_true hval
    have hrender : renderPairs (hd :: tl) = hd.1 ++ (hd.2 :: renderPairs tl) := by
      simp [renderPairs]
    rw [hrender]
    unfold splitInclusive
    rw [splitInclusiveAux_append isUnitChar hd.1 (renderPairs tl) hd.2
      (fun a ha => isUnitChar_of_digit a (hds' a ha)) hu []]
    simp only [List.reverse_nil, List.nil_append]
    show (match processRun t (hd.1 ++ [hd.2]) with
      | .ok t' => timeFromStrList (splitInclusiveAux isUnitChar [] (renderPairs tl)) t'
      | .error e => .error e) = _
    rw [processRun_render t hd.1 hd.2 hne' hds' hval' hu]
    exact (ih _ (by simpa [wfPairs] using htl)).trans (by simp)

lemma headD_of_head? {l : List Char} {c d : Char} (h : l.head? = some c) :
    l.headD d = c := by
  cases l with
  | nil => simp at h
  | cons a rest => simp at h; simp [h]

lemma headD_of_head?_none {l : List Char} {d : Char} (h : l.head? = none) :
    l.headD d = d := by
  cases l with
  | nil => rfl
  | cons a rest => simp at h

lemma processRun_error (t : Time) (r : List Char) (e : TimeErr)
    (h : runVerdict r = some e) : processRun t r = .error e := by
  unfold runVerdict at h
  cases hp : parseU8 (runNumPart r) with
  | none =>
    rw [hp] at h
    simp only [Option.isNone_none, if_true, Option.some.injEq] at h
    rw [processRun_eq_none t r hp, h]
  | some v =>
    rw [hp] at h
    simp only [Option.isNone_some, Bool.false_eq_true, if_false] at h
    cases ha : (runAlphaPart r).head? with
    | none =>
      rw [ha] at h
      replace h : some TimeErr.NoTimeSpecifier = some e := h
      simp only [Option.some.injEq] at h
      rw [processRun_eq_some t r v hp, headD_of_head?_none (d := '\\') ha]
      exact congrArg Except.error h
    | some c =>
      rw [ha] at h
      replace h : (if isUnitChar c = true then none
          else some (TimeErr.InvalidTimeSpecifier c)) = some e := h
      have hmem : c ∈ runAlphaPart r := by
        cases hl : runAlphaPart r with
        | nil => rw [hl] at ha; simp at ha
        | cons a rest => rw [hl] at ha; simp at ha; simp [ha]
      have halpha : isAlphaCh c = true := by
        have := List.mem_filter.mp (by simpa [runAlphaPart] using hmem)
        exact this.2
      have hy : ¬(c = '\\') := by
        rintro rfl; exact absurd halpha (by decide)
      cases hc : isUnitChar c with
      | true => rw [hc] at h; simp at h
      | false =>
        rw [hc] at h
        simp only [Bool.false_eq_true, if_false, Option.some.injEq] at h
        rw [processRun_eq_some t r v hp, headD_of_head? (d := '\\') ha, ← h]
        exact unitDispatch_invalid t v c hc hy

lemma processRun_ok (t : Time) (r : List Char) (h : runVerdict r = none) :
    ∃ t', processRun t r = .ok t' := by
  unfold runVerdict at h
  cases hp : parseU8 (runNumPart r) with
  | none => rw [hp] at h; simp at h
  | some v =>
    rw [hp] at h
    simp only [Option.isNone_some, Bool.false_eq_true, if_false] at h
    cases ha : (runAlphaPart r).head? with
    | none => rw [ha] at h; simp at h
    | some c =>
      rw [ha] at h
      replace h : (if isUnitChar c = true then none
          else some (TimeErr.InvalidTimeSpecifier c)) = none := h
      have hc : isUnitChar c = true := by
        by_contra hc'
        rw [Bool.not_eq_true] at hc'
        rw [hc'] at h
        simp at h
      have hD := headD_of_head? (d := '\\') ha
      rcases unit_char_cases c hc with rfl | rfl | rfl | rfl
      · exact ⟨{ t with seconds := v }, by rw [processRun_eq_some t r v hp, hD]; rfl⟩
      · exact ⟨{ t with minutes := v }, by rw [processRun_eq_some t r v hp, hD]; rfl⟩
      · exact ⟨{ t with hours := v }, by rw [processRun_eq_some t r v hp, hD]; rfl⟩
      · exact ⟨{ t with days := v }, by rw [processRun_eq_some t r v hp, hD]; rfl⟩

lemma timeFromStrList_verdict (runs : List (List Char)) (t : Time) :
    (runs.findSome? runVerdict = none → ∃ t', timeFromStrList runs t = .ok t')
    ∧ ∀ e, runs.findSome? runVerdict = some e → timeFromStrList runs t = .error e := by
  induction runs generalizing t with
  | nil =>
    refine ⟨fun _ => ⟨t, rfl⟩, fun e he => ?_⟩
    simp [List.findSome?_nil] at he
  | cons r rs ih =>
    cases hv : runVerdict r with
    | some eFound =>
      have hfs : (r :: rs).findSome? runVerdict = some eFound := by
        simp [List.findSome?_cons, hv]
      have hpr := processRun_error t r eFound hv
      refine ⟨fun hnone => ?_, fun e he => ?_⟩
      · rw [hfs] at hnone; exact absurd hnone (by simp)
      · rw [hfs] at he
        simp only [Option.some.injEq] at he
        show (match processRun t r with
          | .ok t' => timeFromStrList rs t'
          | .error eOut => .error eOut) = _
        rw [hpr, he]
    | none =>
      obtain ⟨t', hok⟩ := processRun_ok t r hv
      have hfs : (r :: rs).findSome? runVerdict = rs.findSome? runVerdict := by
        simp [List.findSome?_cons, hv]
      have hstep : timeFromStrList (r :: rs) t = timeFromStrList rs t' := by
        show (match processRun t r with
          | .ok t'' => timeFromStrList rs t''
          | .error eOut => .error eOut) = _
        rw [hok]
      refine ⟨fun hnone => ?_, fun e he => ?_⟩
      · rw [hfs] at hnone; rw [hstep]; exact (ih t').1 hnone
      · rw [hfs] at he; rw [hstep]; exact (ih t').2 e he

/-! ## Helper lemmas for the classifier and parser -/

lemma stripDashOr_eq {l : List Char} (h : listStartsWith l ['-'] = false) :
    stripDashOr l = l := by
  cases l with
  | nil => rfl
  | cons c cs =>
    have hc : ¬(c = '-') := by
      intro he
      subst he
      simp [listStartsWith] at h
    simp [stripDashOr, hc]

lemma splitOnAux_nosep (p : Char → Bool) (l : List Char)
    (h : ∀ c ∈ l, p c = false) (acc : List Char) :
    splitOnAux p acc l = [acc.reverse ++ l] := by
  induction l generalizing acc with
  | nil => simp [splitOnAux]
  | cons c rest ih =>
    have hc := h c (by simp)
    simp only [splitOnAux, hc, Bool.false_eq_true, if_false]
    rw [ih (fun b hb => h b (by simp [hb]))]
    simp

set_option maxHeartbeats 1600000 in
lemma classifyToken_ne_notACommand (t : String) :
    classifyToken t ≠ CommandType.NotACommand := by
  intro h
  unfold classifyToken at h
  repeat' split at h
  all_goals exact CommandType.noConfusion h

lemma commandTypeFromStr_ne_notACommand (s : String) :
    commandTypeFromStr s ≠ CommandType.NotACommand :=
  classifyToken_ne_notACommand _

lemma requiresMod_ne_notACommand (b : Bool) (c : Command)
    (h : ¬(c = Command.NotACommand)) :
    Command.requiresMod b c ≠ Command.NotACommand := by
  unfold Command.requiresMod
  split
  · exact h
  · cases c <;> simp_all

lemma requiresDev_ne_notACommand (a : Nat) (c : Command)
    (h : ¬(c = Command.NotACommand)) :
    Command.requiresDev a c ≠ Command.NotACommand := by
  unfold Command.requiresDev
  split
  · exact h
  · simp

lemma splitOnAux_ne_nil (p : Char → Bool) (acc l : List Char) :
    splitOnAux p acc l ≠ [] := by
  induction l generalizing acc with
  | nil => simp [splitOnAux]
  | cons c rest ih =>
    simp only [splitOnAux]
    split
    · simp
    · exact ih _

lemma parseArgs_ne_notACommand (args : List String) (n : String) (m : Bool)
    (a : Nat) (hne : args.isEmpty = false) :
    parseArgs args n m a ≠ some Command.NotACommand := by
  intro hcontra
  unfold parseArgs at hcontra
  rw [if_neg (by simp [hne])] at hcontra
  repeat' split at hcontra
  all_goals first
    | exact commandTypeFromStr_ne_notACommand _ (by assumption)
    | (simp only [Option.some.injEq] at hcontra
       first
         | exact requiresMod_ne_notACommand _ _ (by simp) hcontra
         | exact requiresDev_ne_notACommand _ _ (by simp) hcontra)
    | simp at hcontra

/-! ## Claim theorems -/

/-- C1 (counterexample): the gate's `NotValid` reason does not distinguish a
failed moderator query from a negative one — a `Notice` from an actor whose
`user_request` errored and a `Notice` from an actor who is simply not a
moderator are rewritten to the *same* `NotValid` reason. -/
theorem claim1_reason_counterexample :
    Command.requiresMod (userIsMod (Except.error ()) fun _ => Except.ok false)
        (Command.Notice "hi")
      = Command.NotValid "User is not a registered moderator"
    ∧ Command.requiresMod (userIsMod (Except.ok 5) fun _ => Except.ok false)
        (Command.Notice "hi")
      = Command.NotValid "User is not a registered moderator" := by
  decide

/-- C1 (amended): `requires_mod` leaves every command unchanged for a
moderator, rewrites exactly the `Ban`/`Mute`/`Notice` variants to `NotValid`
with the single reason "User is not a registered moderator" otherwise, and
the underlying moderator query fails closed: an errored user request or an
errored role check yields `false` (denial), so an indeterminate check never
allows a privileged command. -/
theorem claim1_requires_mod_gate (userReq : Except Unit Nat)
    (hasRole : Nat → Except Unit Bool) (c : Command) :
    Command.requiresMod (userIsMod userReq hasRole) c
      = (if userIsMod userReq hasRole = false ∧ c.isPrivileged = true
         then Command.NotValid "User is not a registered moderator" else c)
    ∧ (userReq = .error () → userIsMod userReq hasRole = false)
    ∧ (∀ uid, userReq = .ok uid → hasRole uid = .error () →
        userIsMod userReq hasRole = false) := by
  refine ⟨?_, ?_, ?_⟩
  · cases hm : userIsMod userReq hasRole <;>
      cases c <;> simp [Command.requiresMod, Command.isPrivileged]
  · rintro rfl; rfl
  · rintro uid rfl hr; simp [userIsMod, hr]

/-- C1 (witness): the gate applied at a concrete moderator and command. -/
theorem claim1_requires_mod_gate_witness :
    Command.requiresMod (userIsMod (Except.error ()) fun _ => Except.ok true)
        Command.CoinFlip = Command.CoinFlip
    ∧ userIsMod (Except.error ()) (fun _ => Except.ok true) = false := by
  have h := claim1_requires_mod_gate (Except.error ())
    (fun _ => Except.ok true) Command.CoinFlip
  exact ⟨by simpa using h.1, h.2.1 rfl⟩

/-- C2: the parser is not total — a message whose leading token classifies as
`Ban` or `Mute` but which lacks the indexed argument tokens panics
(index out of bounds on `args[1]` / `args[2]`), modelled as `none`, instead
of producing a `Command` value. -/
theorem claim2_parse_panics_on_missing_args :
    parseFromMessage "-ban" "alice" true 0 = none
    ∧ parseFromMessage "-mute 123" "alice" true 0 = none := by
  decide

/-- C10: the classifier never produces the `NotACommand` kind for any token,
so `Command::NotACommand` arises only from messages that do not start with
the prefix; and the bare prefix "-" parses to
`NotValid("I couldn't parse the command!")`, a rejection rather than
silence. -/
theorem claim10_not_a_command_only_without_dash :
    (∀ s : String, commandTypeFromStr s ≠ CommandType.NotACommand)
    ∧ (∀ (content authorName : String) (isMod : Bool) (authorId : Nat),
        listStartsWith content.data ['-'] = true →
        parseFromMessage content authorName isMod authorId ≠ some Command.NotACommand)
    ∧ (∀ (authorName : String) (isMod : Bool) (authorId : Nat),
        parseFromMessage "-" authorName isMod authorId
          = some (Command.NotValid "I couldn\x27t parse the command!")) := by
  refine ⟨fun s => commandTypeFromStr_ne_notACommand s, ?_, fun n m a => rfl⟩
  intro content n m a h hcontra
  unfold parseFromMessage at hcontra
  rw [h, if_neg (by simp)] at hcontra
  refine parseArgs_ne_notACommand _ n m a ?_ hcontra
  cases hsp : splitOnCh isWhitespaceCh content.data with
  | nil => exact absurd hsp (splitOnAux_ne_nil _ _ _)
  | cons x xs => rfl

/-- C10 (witness): a dash-prefixed message never parses to `NotACommand`. -/
theorem claim10_not_a_command_witness :
    parseFromMessage "-xkcd tautology" "a" false 0 ≠ some Command.NotACommand :=
  claim10_not_a_command_only_without_dash.2.1 "-xkcd tautology" "a" false 0 (by decide)

/-- C3 (counterexample): on the input "x" the single run's trailing character
is the alphabetic non-unit `x`, so the claim demands `InvalidUnit('x')`; but
the source checks the numeric part first and fails with
`ParseIntError` on the empty numeric prefix instead. -/
theorem claim3_error_taxonomy_counterexample :
    timeFromStr "x" = .error (.ParseIntError [])
    ∧ timeFromStr "x" ≠ .error (.InvalidTimeSpecifier 'x') := by
  decide

/-- C3 (amended): the empty string parses to the all-zero duration; every
well-formed value-unit pair sequence (in any order, duplicate units allowed)
parses to the fold that writes each value into its unit's field, so the last
occurrence of a unit wins and unmentioned fields stay zero; and parsing
fails exactly on the first ill-formed run, with the numeric part checked
first (`ParseIntError`, also when the run has no digits at all), then
`NoTimeSpecifier` when the run has no alphabetic character, and otherwise
`InvalidTimeSpecifier` carrying the run's first (not trailing) alphabetic
character. -/
theorem claim3_time_from_str :
    timeFromStr "" = .ok ⟨0, 0, 0, 0⟩
    ∧ (∀ pairs : List (List Char × Char), wfPairs pairs = true →
        timeFromStr (String.mk (renderPairs pairs))
          = .ok (pairs.foldl (fun acc p => setUnit acc p.2 (digitsToNat p.1)) ⟨0, 0, 0, 0⟩))
    ∧ (∀ s : String,
        ((splitInclusive isUnitChar s.data).findSome? runVerdict = none →
          ∃ t, timeFromStr s = .ok t)
        ∧ ∀ e, (splitInclusive isUnitChar s.data).findSome? runVerdict = some e →
          timeFromStr s = .error e) := by
  refine ⟨rfl, fun pairs h => ?_, fun s => ?_⟩
  · exact timeFromStrList_render pairs ⟨0, 0, 0, 0⟩ h
  · exact timeFromStrList_verdict (splitInclusive isUnitChar s.data) ⟨0, 0, 0, 0⟩

/-- C3 (witness): the pair list for "2h30m" is well formed and parses to two
hours and thirty minutes. -/
theorem claim3_time_from_str_witness :
    timeFromStr (String.mk (renderPairs [(['2'], 'h'), (['3', '0'], 'm')]))
      = .ok ⟨0, 30, 2, 0⟩ := by
  have h := claim3_time_from_str.2.1 [(['2'], 'h'), (['3', '0'], 'm')] (by decide)
  exact h.trans (by decide)

/-- C4 (counterexample): the classifier maps "optin", "optout" and "keke" to
the `NotValid` kind — the source enum has no `Optin`, `Optout` or `Keke`
variants, so the claimed synonym entries do not exist. -/
theorem claim4_missing_synonyms_counterexample :
    commandTypeFromStr "optin" = CommandType.NotValid
    ∧ commandTypeFromStr "optout" = CommandType.NotValid
    ∧ commandTypeFromStr "keke" = CommandType.NotValid := by
  decide

/-- C4 (amended): on every bare token (no leading dash, no space or newline)
the classifier is total and agrees with the spec's synonym table applied to
the lowercased token — hence it is case-insensitive — with the
`optin`/`optout`/`keke` rows removed: those tokens fall to `NotValid` like
any other unknown word. -/
theorem claim4_classifier_refines_spec_table (s : String)
    (h : isBareToken s = true) : commandTypeFromStr s = classifySpec s := by
  unfold isBareToken at h
  simp only [Bool.and_eq_true, Bool.not_eq_true', List.all_eq_true] at h
  obtain ⟨hdash, hsep⟩ := h
  unfold commandTypeFromStr splitOnCh
  rw [stripDashOr_eq hdash, splitOnAux_nosep (fun c => c = ' ' || c = '\n') s.data
    (fun c hc => by simpa using hsep c hc) []]
  show classifyToken (lowerStr (String.mk ([].reverse ++ s.data))) = classifySpec s
  rw [show ([] : List Char).reverse ++ s.data = s.data from by simp]
  rw [show String.mk s.data = s from by cases s; rfl]
  rfl

/-- C4 (witness): the uppercase token "BAN" classifies as `Ban` through the
spec table. -/
theorem claim4_classifier_witness :
    commandTypeFromStr "BAN" = classifySpec "BAN"
    ∧ classifySpec "BAN" = CommandType.Ban :=
  ⟨claim4_classifier_refines_spec_table "BAN" (by decide), by decide⟩

/-- C5 (counterexample): when the member lookup and the ban call succeed but
the DM delivery fails, the `Ban` arm returns the error (it is not swallowed):
the ban call stands in the trace, but the channel confirmation is never
attempted, contradicting "the channel confirmation is still sent". -/
theorem claim5_dm_failure_counterexample :
    (executeBan ⟨true, true, false, true⟩).2 = false
    ∧ BanEffect.BanCall ∈ (executeBan ⟨true, true, false, true⟩).1
    ∧ BanEffect.ChannelMessage ∉ (executeBan ⟨true, true, false, true⟩).1 := by
  decide

/-- C5 (amended): the `Ban` arm attempts its gateway calls in the order
member lookup, ban, DM, channel confirmation; a failed lookup or ban aborts
before any message is attempted; and a DM failure after a successful ban
leaves the ban in place but propagates the error, skipping the channel
confirmation. -/
theorem claim5_ban_effect_order (gw : BanGateway) :
    (gw.memberOk = false → executeBan gw = ([.MemberRequest], false))
    ∧ (gw.memberOk = true → gw.banOk = false →
        executeBan gw = ([.MemberRequest, .BanCall], false))
    ∧ (gw.memberOk = true → gw.banOk = true → gw.dmOk = false →
        executeBan gw = ([.MemberRequest, .BanCall, .DmMessage], false))
    ∧ (gw.memberOk = true → gw.banOk = true → gw.dmOk = true →
        executeBan gw
          = ([.MemberRequest, .BanCall, .DmMessage, .ChannelMessage], gw.sendOk)) := by
  obtain ⟨m, b, d, s⟩ := gw
  cases m <;> cases b <;> cases d <;> cases s <;>
    simp [executeBan, banStep]

/-- C5 (witness): a failed member lookup aborts with no message attempted. -/
theorem claim5_ban_effect_order_witness :
    executeBan ⟨false, true, true, true⟩ = ([.MemberRequest], false) :=
  (claim5_ban_effect_order ⟨false, true, true, true⟩).1 rfl

/-- C6: the `"OS"` arm of `xkcd_from_string` is written in uppercase although
it is matched against the lowercased input, so it is dead: both "os" and
"OS" fall through to the 404 default instead of resolving to 272, while the
neighbouring table entries (and the "-xkcd tautology" scenario) behave as
specified. -/
theorem claim6_xkcd_os_divergence :
    xkcdFromString "os" = 404
    ∧ xkcdFromString "OS" = 404
    ∧ xkcdFromString "linux" = 272
    ∧ xkcdFromString "tautology" = 703
    ∧ xkcdFromString "137" = 137
    ∧ parseFromMessage "-xkcd tautology" "a" false 0 = some (.Xkcd 703) := by
  decide

/-- C7: the duration scaling of `TryFrom<Time> for Timestamp` is performed in
`u8`, so `minutes * 60`, `hours * 60 * 60` and `days * 60 * 60 * 24`
overflow for any minutes ≥ 5, hours ≥ 1 or days ≥ 1 (a debug build panics, a
release build wraps), instead of yielding the specified
`seconds + 60·minutes + 3600·hours + 86400·days`; within the non-overflowing
range the two agree. -/
theorem claim7_duration_u8_overflow :
    timeDurationSecs ⟨0, 5, 0, 0⟩ = none
    ∧ specDurationSecs ⟨0, 5, 0, 0⟩ = 300
    ∧ timeDurationSecs ⟨0, 0, 1, 0⟩ = none
    ∧ specDurationSecs ⟨0, 0, 1, 0⟩ = 3600
    ∧ timeDurationSecs ⟨0, 0, 0, 1⟩ = none
    ∧ timeDurationSecs ⟨10, 4, 0, 0⟩ = some (specDurationSecs ⟨10, 4, 0, 0⟩) := by
  decide

/-- C8 (counterexample): blacklisting an already-blacklisted user appends a
duplicate entry to the stored list — the persisted list is not left
unchanged and is no longer deduplicated. -/
theorem claim8_duplicate_counterexample :
    blacklistUser [5] 5 = [5, 5] ∧ blacklistUser [5] 5 ≠ [5] := by
  decide

/-- Membership in the list produced by `blacklist_user` is membership in the
old list or equality with the new id. -/
lemma userIsBlacklisted_append (stored : List Nat) (uid j : Nat) :
    userIsBlacklisted (blacklistUser stored uid) j
      = (userIsBlacklisted stored j || j == uid) := by
  induction stored with
  | nil =>
    simp only [userIsBlacklisted, blacklistUser, List.nil_append]
    by_cases h : j = uid <;> simp [h]
  | cons c cs ih =>
    simp only [userIsBlacklisted, blacklistUser] at ih ⊢
    simp only [List.cons_append, List.contains_cons, ih, Bool.or_assoc]

/-- C8 (amended): `blacklist_user` appends the id unconditionally. At the
membership level the update behaves like set insertion (the new id is a
member afterwards, and re-adding a present id changes no membership), but
the stored list itself always grows by one entry, so inserting an
already-present id leaves a duplicate rather than the list unchanged; the
source has no removal operation. -/
theorem claim8_blacklist_append (stored : List Nat) (uid : Nat) :
    userIsBlacklisted (blacklistUser stored uid) uid = true
    ∧ (∀ j, userIsBlacklisted (blacklistUser stored uid) j
        = (userIsBlacklisted stored j || j == uid))
    ∧ (blacklistUser stored uid).length = stored.length + 1
    ∧ (userIsBlacklisted stored uid = true →
        ∀ j, userIsBlacklisted (blacklistUser stored uid) j
          = userIsBlacklisted stored j) := by
  refine ⟨?_, fun j => userIsBlacklisted_append stored uid j, ?_, ?_⟩
  · rw [userIsBlacklisted_append]; simp
  · simp [blacklistUser]
  · intro h j
    rw [userIsBlacklisted_append]
    by_cases hj : j = uid
    · subst hj; simp [h]
    · simp [hj]

/-- C8 (witness): re-adding the present id 5 leaves membership unchanged. -/
theorem claim8_blacklist_append_witness :
    userIsBlacklisted (blacklistUser [5] 5) 7 = userIsBlacklisted [5] 7
    ∧ userIsBlacklisted [5] 5 = true :=
  ⟨(claim8_blacklist_append [5] 5).2.2.2 (by decide) 7, by decide⟩

/-- C9: `lowest_id_availible` computes the maximum stored case id (starting
from 0), not the lowest unused one: with a single case of id 1 it returns 1,
an id already in use (so `Create` would collide), whereas the lowest free id
is 0; with ids 0, 1, 2 it returns 2 instead of 3. -/
theorem claim9_max_id_not_lowest_free :
    lowestIdAvailible [1] = 1
    ∧ (1 : Nat) ∈ [1]
    ∧ specLowestFreeId [1] = 0
    ∧ lowestIdAvailible [0, 1, 2] = 2
    ∧ specLowestFreeId [0, 1, 2] = 3 := by
  decide

end Bababot
